import Mathlib

/-!
Verification of the Rummikub set validator (`src/parser.rs`, `src/tiles.rs`,
`src/colors.rs`).  The Rust code is embedded shallowly: the mutable
state-machine loop of `is_valid_set` becomes a step function plus a fold, and
the two-pointer loop of `_is_symmetric` becomes a fuel-indexed step relation.
`u8` arithmetic is modelled on `Nat` with explicit wrap-around (`% 256`,
Rust release-mode overflow semantics); `usize` cursor underflow and
out-of-bounds indexing, which in Rust abort the process, are modelled as an
explicit `crash` outcome.
-/

namespace Rummikub

/-- The four tile colors (`TileColor` in `tiles.rs`). -/
inductive TileColor
  | black
  | red
  | blue
  | orange
deriving DecidableEq

/-- A numbered tile (`BasicTile` in `tiles.rs`); `value` is a `u8` in the source. -/
structure BasicTile where
  color : TileColor
  value : Nat
deriving DecidableEq

/-- The four joker variants (`JokerVariant` in `tiles.rs`). -/
inductive JokerVariant
  | single
  | double
  | mirror
  | colorChange
deriving DecidableEq

/-- A tile (`Tile` in `tiles.rs`); the Rust `Joker` struct only holds its variant. -/
inductive Tile
  | basic (t : BasicTile)
  | joker (v : JokerVariant)
deriving DecidableEq

/-- Wrapping `u8` arithmetic (Rust release-mode overflow semantics). -/
def u8 (n : Nat) : Nat := n % 256

/-- The color-allowance map: `HashMap<TileColor, bool>` in `colors.rs`, which
always holds exactly the four colors, embedded as a four-field record. -/
structure Allow where
  black : Bool
  red : Bool
  blue : Bool
  orange : Bool
deriving DecidableEq

/-- Map lookup `allow[&color]`. -/
def Allow.get (a : Allow) : TileColor → Bool
  | .black => a.black
  | .red => a.red
  | .blue => a.blue
  | .orange => a.orange

/-- Map update `allow.insert(color, b)`. -/
def Allow.put (a : Allow) : TileColor → Bool → Allow
  | .black, b => { a with black := b }
  | .red, b => { a with red := b }
  | .blue, b => { a with blue := b }
  | .orange, b => { a with orange := b }

/-- `Colors::all()` in `colors.rs`. -/
def Colors.all : Allow := ⟨true, true, true, true⟩

/-- `Colors::none()` in `colors.rs`. -/
def Colors.nothing : Allow := ⟨false, false, false, false⟩

/-- `Colors::only(color)` in `colors.rs`. -/
def Colors.only (c : TileColor) : Allow := Colors.nothing.put c true

/-- `Colors::except(color)` in `colors.rs`. -/
def Colors.except (c : TileColor) : Allow := Colors.all.put c false

/-- The number of colors mapped to `true` (the `allow_cnt` filter-count in
`is_valid_set`). -/
def Allow.count (a : Allow) : Nat :=
  a.black.toNat + a.red.toNat + a.blue.toNat + a.orange.toNat

/-- The mutation loop in the ColorChange arm of `is_valid_set` that flips every
entry of the allowance map. -/
def Allow.invert (a : Allow) : Allow := ⟨!a.black, !a.red, !a.blue, !a.orange⟩

/-- The parser state (`enum Parsing` in `parser.rs`). -/
inductive Parsing
  | run (lastValue : Option Nat) (allow : Allow) (size : Nat)
  | group (value : Nat) (allow : Allow) (size : Nat)
  | undetermined (tileSeen : Option (BasicTile × Nat)) (size : Nat)
deriving DecidableEq

/-- Whether a parser state is the `Run` variant. -/
def Parsing.isRun : Parsing → Bool
  | .run _ _ _ => true
  | _ => false

/-- Whether a parser state is the `Group` variant. -/
def Parsing.isGroup : Parsing → Bool
  | .group _ _ _ => true
  | _ => false

/-- Outcome of the embedded `_is_symmetric`: a boolean, a process abort
(`usize` underflow or index out of bounds), or exhaustion of the loop fuel
(proved unreachable below). -/
inductive SymRes
  | val (b : Bool)
  | crash
  | fuelOut
deriving DecidableEq

/-- Outcome of the embedded `is_valid_set`: a boolean, or one of the Rust
panics (`_assert_valid_tile_value`, the ColorChange allowance-count `panic!`,
an abort inside `_is_symmetric`), or loop-fuel exhaustion (proved
unreachable below). -/
inductive VRes
  | ok (b : Bool)
  | valuePanic
  | allowPanic
  | idxPanic
  | fuelOut
deriving DecidableEq

/-- Whether a tile is a Double joker. -/
def Tile.isDouble : Tile → Bool
  | .joker .double => true
  | _ => false

/-- State of the two-pointer scan in `_is_symmetric`: the cursors and the two
pending-double-joker flags `incr_dj_left` / `incr_dj_right`. -/
structure SymSt where
  left : Nat
  right : Nat
  djl : Bool
  djr : Bool
deriving DecidableEq

/-- One loop iteration of `_is_symmetric` either returns or yields a new state. -/
inductive SymStep
  | ret (r : SymRes)
  | next (s : SymSt)
deriving DecidableEq

/-- The tile-comparison `match` at the top of the `_is_symmetric` loop body
(parser.rs lines 382-513).  Returns `none` on the immediate `return false`
branches, otherwise `(incr_left, incr_right, incr_dj_left', incr_dj_right')`. -/
def symCmp (tl tr : Tile) (djl djr : Bool) : Option (Bool × Bool × Bool × Bool) :=
  match tl with
  | .basic bl =>
    match tr with
    | .basic br => if bl = br then some (true, true, djl, djr) else none
    | .joker .single => some (true, true, djl, djr)
    | .joker .double =>
        if djr then some (true, true, djl, false) else some (true, false, djl, true)
    | .joker .mirror => none
    | .joker .colorChange => none
  | .joker .single =>
    match tr with
    | .basic _ => some (true, true, djl, djr)
    | .joker .single => some (true, true, djl, djr)
    | .joker .double =>
        if djr then some (true, true, djl, false) else some (true, false, djl, true)
    | .joker .mirror => none
    | .joker .colorChange => none
  | .joker .double =>
    match tr with
    | .basic _ =>
        if djl then some (true, true, false, djr) else some (false, true, true, djr)
    | .joker .single =>
        if djl then some (true, true, false, djr) else some (false, true, true, djr)
    | .joker .double =>
        match djl, djr with
        | true, true => some (true, true, false, false)
        | true, false => some (true, false, false, true)
        | false, true => some (false, true, true, false)
        | false, false => some (false, false, true, true)
    | .joker .mirror => none
    | .joker .colorChange => none
  | .joker .mirror => none
  | .joker .colorChange =>
    match tr with
    | .basic _ => none
    | .joker .single => none
    | .joker .double => none
    | .joker .mirror => none
    | .joker .colorChange => some (true, true, djl, djr)

/-- One full iteration of the `_is_symmetric` loop (comparison plus the
boundary-double-joker `continue`s, the `break` test and the cursor updates,
parser.rs lines 381-543).  Indexing out of bounds, or the `left -= 1` usize
underflow on the right-boundary path, aborts the process (`crash`). -/
def symStepF (set : List Tile) (s : SymSt) : SymStep :=
  match set.get? s.left, set.get? s.right with
  | none, _ => .ret .crash
  | some _, none => .ret .crash
  | some tl, some tr =>
    match symCmp tl tr s.djl s.djr with
    | none => .ret (.val false)
    | some (il, ir, djl', djr') =>
      if s.left = 0 ∧ tl.isDouble ∧ djl' then
        .next ⟨s.left, if ir then s.right + 1 else s.right, djl', djr'⟩
      else if s.right = set.length - 1 ∧ tr.isDouble ∧ djr' then
        if il then
          if s.left = 0 then .ret .crash
          else .next ⟨s.left - 1, s.right, djl', djr'⟩
        else .next ⟨s.left, s.right, djl', djr'⟩
      else if s.left = 0 ∨ s.right = set.length - 1 then
        .ret (.val (s.left == 0 && s.right == set.length - 1))
      else
        .next ⟨s.left - (if il then 1 else 0), s.right + (if ir then 1 else 0), djl', djr'⟩

/-- The `_is_symmetric` loop, indexed by fuel. -/
def symGo (set : List Tile) : Nat → SymSt → SymRes
  | 0, _ => .fuelOut
  | fuel + 1, s =>
    match symStepF set s with
    | .ret r => r
    | .next s' => symGo set fuel s'

/-- Fuel budget for the symmetry scan; proved sufficient below. -/
def symFuel (set : List Tile) : Nat := 4 * set.length + 4

/-- `_is_symmetric(set, axis)` (parser.rs lines 364-549). -/
def isSymmetricChecked (set : List Tile) (axis : Nat) : SymRes :=
  if axis = 0 ∨ axis = set.length - 1 then .val false
  else symGo set (symFuel set) ⟨axis - 1, axis + 1, false, false⟩

/-- Lift a symmetry-scan outcome into a validator outcome. -/
def symToV : SymRes → VRes
  | .val b => .ok b
  | .crash => .idxPanic
  | .fuelOut => .fuelOut

/-- One step of the validator either halts with a final result or continues
with a new parser state. -/
inductive ValStep
  | halt (r : VRes)
  | cont (p : Parsing)
deriving DecidableEq

/-- The `Parsing::Run` arm of the `is_valid_set` loop (parser.rs lines 63-151). -/
def runStep (set : List Tile) (index : Nat) (lastValue : Option Nat)
    (allow : Allow) (size : Nat) : Tile → ValStep
  | .basic tb =>
    if tb.value = 0 ∨ 13 < tb.value then .halt .valuePanic
    else if !(allow.get tb.color) then .halt (.ok false)
    else if tb.value ≤ size then .halt (.ok false)
    else
      match lastValue with
      | some val =>
        if tb.value ≠ u8 (val + 1) then .halt (.ok false)
        else .cont (.run (some (u8 (val + 1))) allow (u8 (size + 1)))
      | none => .cont (.run (some tb.value) (Colors.only tb.color) (u8 (size + 1)))
  | .joker .single =>
    match lastValue with
    | some val =>
      if 13 < u8 (val + 1) then .halt (.ok false)
      else .cont (.run (some (u8 (val + 1))) allow (u8 (size + 1)))
    | none => .cont (.run none allow (u8 (size + 1)))
  | .joker .double =>
    match lastValue with
    | some val =>
      if 13 < u8 (val + 2) then .halt (.ok false)
      else .cont (.run (some (u8 (val + 2))) allow (u8 (size + 2)))
    | none => .cont (.run none allow (u8 (size + 2)))
  | .joker .mirror => .halt (symToV (isSymmetricChecked set index))
  | .joker .colorChange =>
    match lastValue with
    | some val =>
      if 13 < u8 (val + 1) then .halt (.ok false)
      else
        if allow.count = 1 then
          .cont (.run (some (u8 (val + 1))) allow.invert (u8 (size + 1)))
        else if allow.count = 3 then
          .cont (.run (some (u8 (val + 1))) Colors.all (u8 (size + 1)))
        else .halt .allowPanic
    | none => .cont (.run none Colors.all (u8 (size + 1)))

/-- The `Parsing::Group` arm of the `is_valid_set` loop (parser.rs lines
153-191).  Note that the source does not clear `allow[t.color]` after a basic
tile is consumed. -/
def groupStep (set : List Tile) (index : Nat) (value : Nat)
    (allow : Allow) (size : Nat) : Tile → ValStep
  | .basic tb =>
    if tb.value = 0 ∨ 13 < tb.value then .halt .valuePanic
    else if tb.value ≠ value then .halt (.ok false)
    else if !(allow.get tb.color) then .halt (.ok false)
    else if 4 < u8 (size + 1) then .halt (.ok false)
    else .cont (.group value allow (u8 (size + 1)))
  | .joker .single =>
    if 4 < u8 (size + 1) then .halt (.ok false)
    else .cont (.group value allow (u8 (size + 1)))
  | .joker .double =>
    if 4 < u8 (size + 2) then .halt (.ok false)
    else .cont (.group value allow (u8 (size + 2)))
  | .joker .mirror => .halt (symToV (isSymmetricChecked set index))
  | .joker .colorChange => .halt (.ok false)

/-- The `Parsing::Undetermined` arm of the `is_valid_set` loop (parser.rs
lines 192-333). -/
def undetStep (set : List Tile) (index : Nat)
    (tileSeen : Option (BasicTile × Nat)) (size : Nat) : Tile → ValStep
  | .basic tb =>
    if tb.value = 0 ∨ 13 < tb.value then .halt .valuePanic
    else
      match tileSeen with
      | some (ts, dist) =>
        if tb.value = u8 (ts.value + dist) ∧ tb.color = ts.color then
          if tb.value < size then .halt (.ok false)
          else .cont (.run (some tb.value) (Colors.only tb.color) (u8 (size + 1)))
        else if tb.value = ts.value ∧ tb.color ≠ ts.color then
          if 3 < size then .halt (.ok false)
          else .cont (.group ts.value ((Colors.all.put tb.color false).put ts.color false)
            (u8 (size + 1)))
        else .halt (.ok false)
      | none =>
        if 4 < u8 (size + 1) then
          if tb.value ≤ u8 (size + 1) then .halt (.ok false)
          else .cont (.run none (Colors.only tb.color) (u8 (size + 1)))
        else .cont (.undetermined (some (⟨tb.color, tb.value⟩, 1)) (u8 (size + 1)))
  | .joker .single =>
    match tileSeen with
    | some (ts, dist) =>
      if 4 < u8 (size + 1) then
        .cont (.run (some (u8 (ts.value + u8 (dist + 1)))) (Colors.only ts.color)
          (u8 (size + 1)))
      else .cont (.undetermined (some (ts, u8 (dist + 1))) (u8 (size + 1)))
    | none =>
      if 4 < u8 (size + 1) then .cont (.run none Colors.all (u8 (size + 1)))
      else .cont (.undetermined none (u8 (size + 1)))
  | .joker .double =>
    match tileSeen with
    | some (ts, dist) =>
      if 4 < u8 (size + 2) then
        .cont (.run (some (u8 (u8 (ts.value + u8 (dist + 2)) + 255))) (Colors.only ts.color)
          (u8 (size + 2)))
      else .cont (.undetermined (some (ts, u8 (dist + 2))) (u8 (size + 2)))
    | none =>
      if 4 < u8 (size + 2) then .cont (.run none Colors.all (u8 (size + 2)))
      else .cont (.undetermined none (u8 (size + 2)))
  | .joker .mirror => .halt (symToV (isSymmetricChecked set index))
  | .joker .colorChange =>
    match tileSeen with
    | some (ts, _) =>
      .cont (.run (some (u8 (ts.value + 1))) (Colors.except ts.color) (u8 (size + 1)))
    | none => .cont (.run none Colors.all (u8 (size + 1)))

/-- One iteration of the `is_valid_set` loop at position `index`. -/
def validStep (set : List Tile) (index : Nat) (p : Parsing) (t : Tile) : ValStep :=
  match p with
  | .run lastValue allow size => runStep set index lastValue allow size t
  | .group value allow size => groupStep set index value allow size t
  | .undetermined tileSeen size => undetStep set index tileSeen size t

/-- The `while let` traversal of `is_valid_set`: falling off the end of the
input yields `true`. -/
def validGo (set : List Tile) : Nat → Parsing → List Tile → VRes
  | _, _, [] => .ok true
  | i, p, t :: ts =>
    match validStep set i p t with
    | .halt r => r
    | .cont p' => validGo set (i + 1) p' ts

/-- The initial parser state of `is_valid_set`. -/
def initState : Parsing := .undetermined none 0

/-- `is_valid_set(set)` (parser.rs lines 51-337). -/
def isValidSet (set : List Tile) : VRes :=
  if set.length < 3 then .ok false
  else validGo set 0 initState set

/-! Regression checks mirroring the test suite of `parser.rs`. -/

example : isValidSet [.basic ⟨.red, 5⟩, .basic ⟨.red, 6⟩, .basic ⟨.red, 7⟩,
    .basic ⟨.red, 8⟩] = .ok true := by decide

example : isValidSet [.basic ⟨.blue, 9⟩, .basic ⟨.blue, 8⟩, .basic ⟨.blue, 7⟩] =
    .ok false := by decide

example : isValidSet [.basic ⟨.blue, 7⟩, .basic ⟨.blue, 8⟩] = .ok false := by decide

example : isValidSet [.basic ⟨.red, 7⟩, .basic ⟨.blue, 7⟩, .basic ⟨.black, 7⟩,
    .basic ⟨.orange, 7⟩] = .ok true := by decide

example : isValidSet [.basic ⟨.red, 7⟩, .basic ⟨.red, 7⟩, .basic ⟨.black, 7⟩,
    .basic ⟨.orange, 7⟩] = .ok false := by decide

example : isValidSet [.basic ⟨.red, 8⟩, .basic ⟨.orange, 8⟩, .basic ⟨.blue, 8⟩,
    .basic ⟨.blue, 9⟩, .basic ⟨.blue, 10⟩] = .ok false := by decide

example : isValidSet [.basic ⟨.red, 8⟩, .joker .single, .basic ⟨.red, 10⟩] =
    .ok true := by decide

example : isValidSet [.basic ⟨.red, 8⟩, .joker .single, .basic ⟨.red, 9⟩] =
    .ok false := by decide

example : isValidSet [.joker .single, .basic ⟨.red, 1⟩, .basic ⟨.red, 2⟩,
    .basic ⟨.red, 3⟩] = .ok false := by decide

example : isValidSet [.basic ⟨.red, 11⟩, .basic ⟨.red, 12⟩, .basic ⟨.red, 13⟩,
    .joker .single] = .ok false := by decide

example : isValidSet [.basic ⟨.red, 8⟩, .joker .single, .basic ⟨.blue, 8⟩] =
    .ok true := by decide

example : isValidSet [.joker .single, .joker .single, .joker .single,
    .basic ⟨.red, 1⟩] = .ok true := by decide

example : isValidSet [.joker .single, .basic ⟨.blue, 8⟩, .joker .single] =
    .ok true := by decide

example : isValidSet [.joker .double, .basic ⟨.blue, 8⟩, .basic ⟨.blue, 9⟩] =
    .ok true := by decide

example : isValidSet [.basic ⟨.blue, 3⟩, .joker .double, .joker .double,
    .basic ⟨.blue, 8⟩] = .ok true := by decide

example : isValidSet [.basic ⟨.blue, 8⟩, .joker .double, .basic ⟨.blue, 11⟩] =
    .ok true := by decide

example : isValidSet [.basic ⟨.blue, 8⟩, .joker .double, .basic ⟨.red, 11⟩] =
    .ok false := by decide

example : isValidSet [.basic ⟨.red, 8⟩, .basic ⟨.blue, 8⟩, .joker .double,
    .basic ⟨.black, 8⟩] = .ok false := by decide

example : isValidSet [.basic ⟨.black, 7⟩, .basic ⟨.red, 7⟩, .joker .mirror,
    .basic ⟨.red, 7⟩, .basic ⟨.black, 7⟩] = .ok true := by decide

example : isValidSet [.basic ⟨.black, 7⟩, .basic ⟨.black, 8⟩, .joker .mirror,
    .basic ⟨.black, 8⟩, .basic ⟨.black, 7⟩] = .ok true := by decide

example : isValidSet [.basic ⟨.red, 7⟩, .basic ⟨.black, 7⟩, .joker .mirror,
    .basic ⟨.red, 7⟩, .basic ⟨.black, 7⟩] = .ok false := by decide

example : isValidSet [.basic ⟨.red, 8⟩, .basic ⟨.red, 7⟩, .joker .mirror,
    .basic ⟨.red, 7⟩, .basic ⟨.red, 8⟩] = .ok false := by decide

example : isValidSet [.basic ⟨.red, 7⟩, .basic ⟨.red, 8⟩, .joker .mirror,
    .basic ⟨.red, 8⟩, .basic ⟨.red, 7⟩, .basic ⟨.red, 6⟩] = .ok false := by decide

example : isValidSet [.basic ⟨.red, 8⟩, .joker .mirror, .basic ⟨.red, 8⟩,
    .joker .mirror, .basic ⟨.red, 8⟩] = .ok false := by decide

example : isValidSet [.basic ⟨.red, 6⟩, .basic ⟨.red, 7⟩, .joker .colorChange,
    .basic ⟨.blue, 9⟩, .basic ⟨.blue, 10⟩] = .ok true := by decide

example : isValidSet [.basic ⟨.red, 6⟩, .basic ⟨.red, 7⟩, .joker .colorChange,
    .basic ⟨.red, 9⟩, .basic ⟨.red, 10⟩] = .ok false := by decide

example : isValidSet [.basic ⟨.red, 6⟩, .basic ⟨.red, 7⟩, .joker .colorChange,
    .basic ⟨.red, 8⟩, .basic ⟨.red, 9⟩] = .ok false := by decide

example : isValidSet [.basic ⟨.orange, 6⟩, .joker .colorChange, .basic ⟨.red, 8⟩,
    .joker .colorChange, .basic ⟨.blue, 10⟩] = .ok true := by decide

example : isValidSet [.joker .colorChange, .basic ⟨.red, 8⟩, .joker .colorChange] =
    .ok true := by decide

example : isValidSet [.basic ⟨.orange, 6⟩, .joker .colorChange,
    .joker .colorChange] = .ok true := by decide

example : isValidSet [.basic ⟨.orange, 6⟩, .joker .colorChange,
    .joker .colorChange, .basic ⟨.orange, 9⟩] = .ok true := by decide

example : isValidSet [.basic ⟨.red, 6⟩, .basic ⟨.red, 7⟩, .basic ⟨.red, 8⟩,
    .joker .mirror, .basic ⟨.red, 8⟩, .joker .single, .basic ⟨.red, 6⟩] =
    .ok true := by decide

example : isValidSet [.basic ⟨.blue, 6⟩, .joker .colorChange, .basic ⟨.red, 8⟩,
    .joker .mirror, .basic ⟨.red, 8⟩, .joker .colorChange, .basic ⟨.blue, 6⟩] =
    .ok true := by decide

example : isValidSet [.basic ⟨.red, 6⟩, .joker .single, .basic ⟨.red, 8⟩,
    .joker .mirror, .basic ⟨.red, 8⟩, .basic ⟨.red, 7⟩, .basic ⟨.red, 6⟩] =
    .ok true := by decide

example : isValidSet [.basic ⟨.red, 6⟩, .basic ⟨.red, 7⟩, .basic ⟨.red, 8⟩,
    .basic ⟨.red, 9⟩, .joker .mirror, .joker .double, .joker .double] =
    .ok true := by decide

example : isValidSet [.joker .double, .joker .colorChange, .joker .double,
    .basic ⟨.red, 3⟩] = .ok false := by decide

example : isValidSet [.basic ⟨.red, 3⟩, .joker .double, .joker .double,
    .joker .single, .joker .single, .joker .colorChange, .joker .colorChange,
    .basic ⟨.red, 12⟩] = .ok true := by decide

example : isValidSet [.basic ⟨.red, 6⟩, .joker .double, .joker .double,
    .joker .single, .joker .single, .joker .colorChange, .joker .colorChange] =
    .ok false := by decide

example : isValidSet [.basic ⟨.red, 5⟩, .basic ⟨.red, 6⟩, .joker .double,
    .joker .mirror, .basic ⟨.red, 8⟩, .joker .double, .basic ⟨.red, 5⟩] =
    .ok true := by decide

/-- The state reached after processing a prefix of tiles without halting
(`none` when the loop would have returned inside the prefix). -/
def stateAfter (set : List Tile) : Nat → Parsing → List Tile → Option Parsing
  | _, p, [] => some p
  | i, p, t :: ts =>
    match validStep set i p t with
    | .halt _ => none
    | .cont p' => stateAfter set (i + 1) p' ts

/-- Well-formedness of a tile: basic values lie in `[1, 13]`. -/
def wfTile : Tile → Prop
  | .basic b => 1 ≤ b.value ∧ b.value ≤ 13
  | .joker _ => True

/-- The list contains a ColorChange joker before any Mirror joker, with every
basic tile up to that point well-formed. -/
def leadsToCC : List Tile → Prop
  | [] => False
  | t :: ts => t = Tile.joker .colorChange ∨
      (t ≠ Tile.joker .mirror ∧ wfTile t ∧ leadsToCC ts)

lemma runStep_cont {set : List Tile} {i : Nat} {lv : Option Nat} {a : Allow}
    {s : Nat} {t : Tile} {p' : Parsing}
    (h : runStep set i lv a s t = .cont p') : p'.isRun = true := by
  rcases t with tb | jv
  · simp only [runStep] at h
    repeat' split at h
    all_goals (cases h <;> rfl)
  · cases jv <;>
      (simp only [runStep] at h; repeat' split at h;
       all_goals (cases h <;> rfl))

lemma groupStep_cont {set : List Tile} {i : Nat} {v : Nat} {a : Allow}
    {s : Nat} {t : Tile} {p' : Parsing}
    (h : groupStep set i v a s t = .cont p') : p'.isGroup = true := by
  rcases t with tb | jv
  · simp only [groupStep] at h
    repeat' split at h
    all_goals (cases h <;> rfl)
  · cases jv <;>
      (simp only [groupStep] at h; repeat' split at h;
       all_goals (cases h <;> rfl))

/-- Every result the Group arm halts with is the boolean `false` (the Mirror
arm, which delegates to the symmetry resolver, is the only exception). -/
lemma groupStep_halt {set : List Tile} {i : Nat} {v : Nat} {a : Allow}
    {s : Nat} {t : Tile} {r : VRes}
    (hm : t ≠ Tile.joker .mirror) (hw : wfTile t)
    (h : groupStep set i v a s t = .halt r) : r = .ok false := by
  rcases t with tb | jv
  · rcases hw with ⟨hw1, hw2⟩
    simp only [groupStep] at h
    repeat' split at h
    all_goals try (cases h)
    all_goals first | rfl | omega
  · cases jv <;> simp only [groupStep] at h
    · split at h <;> cases h <;> rfl
    · split at h <;> cases h <;> rfl
    · exact absurd rfl hm
    · cases h; rfl

/-- From the Group state, a traversal whose remaining tiles reach a
ColorChange joker before any Mirror joker always ends in `false`. -/
lemma validGo_group_cc {set : List Tile} :
    ∀ (ts : List Tile) (i v : Nat) (a : Allow) (s : Nat), leadsToCC ts →
      validGo set i (.group v a s) ts = .ok false := by
  intro ts
  induction ts with
  | nil => intro _ _ _ _ hcc; exact absurd hcc (by simp [leadsToCC])
  | cons t ts ih =>
    intro i v a s hcc
    rcases hcc with hcc | ⟨hm, hw, hcc⟩
    · subst hcc
      simp [validGo, validStep, groupStep]
    · simp only [validGo, validStep]
      cases hstep : groupStep set i v a s t with
      | halt r => simpa using groupStep_halt hm hw hstep
      | cont p' =>
        have hg := groupStep_cont hstep
        rcases p' with _ | ⟨v', a', s'⟩ | _ <;> simp [Parsing.isGroup] at hg
        simpa using ih (i + 1) v' a' s' hcc

/-- Processing a prefix without halting, then the rest, equals processing the
concatenation. -/
lemma validGo_append {set : List Tile} :
    ∀ (pre rest : List Tile) (i : Nat) (p q : Parsing),
      stateAfter set i p pre = some q →
      validGo set i p (pre ++ rest) = validGo set (i + pre.length) q rest := by
  intro pre
  induction pre with
  | nil => intro rest i p q h; simp [stateAfter] at h; subst h; simp
  | cons t ts ih =>
    intro rest i p q h
    cases hstep : validStep set i p t with
    | halt r => simp [stateAfter, hstep] at h
    | cont p' =>
      simp only [stateAfter, hstep] at h
      simp only [List.cons_append, validGo, hstep, List.append_eq]
      rw [ih rest (i + 1) p' q h, List.length_cons]
      congr 1
      omega

/-- The ascending same-color run `[c v, c v+1, ..., c v+n-1]`. -/
def ascFrom (c : TileColor) : Nat → Nat → List Tile
  | _, 0 => []
  | v, n + 1 => .basic ⟨c, v⟩ :: ascFrom c (v + 1) n

lemma ascFrom_length {c : TileColor} : ∀ n v, (ascFrom c v n).length = n := by
  intro n
  induction n with
  | zero => intro v; rfl
  | succ n ih => intro v; simp [ascFrom, ih]

lemma ascFrom_snoc {c : TileColor} :
    ∀ n v, ascFrom c v (n + 1) = ascFrom c v n ++ [.basic ⟨c, v + n⟩] := by
  intro n
  induction n with
  | zero => intro v; simp [ascFrom]
  | succ n ih =>
    intro v
    have h1 : ascFrom c v (n + 1 + 1) = .basic ⟨c, v⟩ :: ascFrom c (v + 1) (n + 1) := rfl
    rw [h1, ih (v + 1)]
    have h2 : v + 1 + n = v + (n + 1) := by omega
    simp [ascFrom, h2]

lemma ascFrom_reverse_cons {c : TileColor} (n v : Nat) :
    (ascFrom c v (n + 1)).reverse = .basic ⟨c, v + n⟩ :: (ascFrom c v n).reverse := by
  rw [ascFrom_snoc]
  simp

lemma validGo_cons_cont {set : List Tile} {i : Nat} {p : Parsing} {t : Tile}
    {ts : List Tile} {p' : Parsing} (h : validStep set i p t = .cont p') :
    validGo set i p (t :: ts) = validGo set (i + 1) p' ts := by
  simp [validGo, h]

lemma validGo_cons_halt {set : List Tile} {i : Nat} {p : Parsing} {t : Tile}
    {ts : List Tile} {r : VRes} (h : validStep set i p t = .halt r) :
    validGo set i p (t :: ts) = r := by
  simp [validGo, h]

lemma only_get_self (c : TileColor) : (Colors.only c).get c = true := by
  cases c <;> rfl

/-- From a Run state locked to color `c` with `lastValue = u ≥ size`, the rest
of an in-range ascending run is accepted. -/
lemma validGo_run_asc {set : List Tile} {c : TileColor} :
    ∀ (m u s i : Nat), s ≤ u → u + m ≤ 13 →
      validGo set i (.run (some u) (Colors.only c) s) (ascFrom c (u + 1) m) =
        .ok true := by
  intro m
  induction m with
  | zero => intro u s i _ _; rfl
  | succ m ih =>
    intro u s i hsu hum
    have hstep : validStep set i (.run (some u) (Colors.only c) s)
        (.basic ⟨c, u + 1⟩) =
        .cont (.run (some (u + 1)) (Colors.only c) (s + 1)) := by
      have hu8v : u8 (u + 1) = u + 1 := Nat.mod_eq_of_lt (by omega)
      have hu8s : u8 (s + 1) = s + 1 := Nat.mod_eq_of_lt (by omega)
      simp only [validStep, runStep, only_get_self, Bool.not_true, hu8v, hu8s]
      rw [if_neg (by omega), if_neg (by simp), if_neg (by omega),
        if_neg (by simp)]
    rw [show ascFrom c (u + 1) (m + 1) =
          .basic ⟨c, u + 1⟩ :: ascFrom c (u + 1 + 1) m from rfl,
      validGo_cons_cont hstep]
    exact ih (u + 1) (s + 1) (i + 1) (by omega) (by omega)

/-- A sequence of length at least 3 whose first two tiles are same-colored
basics with the second value one below the first is rejected at the second
tile. -/
lemma isValidSet_desc_start {c : TileColor} {w : Nat} :
    ∀ (set : List Tile), set.get? 0 = some (.basic ⟨c, w + 1⟩) →
      set.get? 1 = some (.basic ⟨c, w⟩) → 1 ≤ w → w + 1 ≤ 13 →
      ¬ set.length < 3 → isValidSet set = .ok false := by
  intro set h0 h1 hw hw13 hlen
  rcases set with _ | ⟨t0, set⟩
  · simp at h0
  rcases set with _ | ⟨t1, set⟩
  · simp at h1
  have ht0 : t0 = .basic ⟨c, w + 1⟩ := by simpa using h0
  have ht1 : t1 = .basic ⟨c, w⟩ := by simpa using h1
  subst ht0; subst ht1
  have hstep0 : validStep (Tile.basic ⟨c, w + 1⟩ :: Tile.basic ⟨c, w⟩ :: set) 0
      initState (.basic ⟨c, w + 1⟩) =
      .cont (.undetermined (some (⟨c, w + 1⟩, 1)) 1) := by
    simp only [initState, validStep, undetStep]
    rw [if_neg (by omega), if_neg (by decide)]
    rfl
  have hstep1 : validStep (Tile.basic ⟨c, w + 1⟩ :: Tile.basic ⟨c, w⟩ :: set) 1
      (.undetermined (some (⟨c, w + 1⟩, 1)) 1) (.basic ⟨c, w⟩) =
      .halt (.ok false) := by
    simp only [validStep, undetStep]
    rw [if_neg (by omega)]
    rw [if_neg (by
      rintro ⟨hh, -⟩
      rw [show u8 (w + 1 + 1) = w + 2 from Nat.mod_eq_of_lt (by omega)] at hh
      omega)]
    rw [if_neg (by rintro ⟨hh, -⟩; omega)]
  unfold isValidSet
  rw [if_neg hlen, validGo_cons_cont hstep0, validGo_cons_halt hstep1]

/-- Per-side progress contract of the comparison `match`: a cursor either
advances (possibly clearing its pending flag) or newly sets its pending flag. -/
def sideSpec (incr dj dj' : Bool) : Prop :=
  (incr = true ∧ dj' = dj) ∨ (incr = true ∧ dj = true ∧ dj' = false) ∨
    (incr = false ∧ dj = false ∧ dj' = true)

lemma symCmp_spec {tl tr : Tile} {djl djr il ir djl' djr' : Bool}
    (h : symCmp tl tr djl djr = some (il, ir, djl', djr')) :
    sideSpec il djl djl' ∧ sideSpec ir djr djr' := by
  cases djl <;> cases djr <;>
    rcases tl with ⟨bl⟩ | vl <;> rcases tr with ⟨br⟩ | vr <;>
    first
      | (cases vl <;> cases vr <;> simp_all [symCmp, sideSpec])
      | (cases vl <;> simp_all [symCmp, sideSpec])
      | (cases vr <;> simp_all [symCmp, sideSpec])
      | (simp only [symCmp] at h; split at h <;> cases h <;> simp [sideSpec])

/-- Termination measure for the two-pointer scan. -/
def phi (set : List Tile) (s : SymSt) : Nat :=
  2 * s.left + 2 * (set.length - s.right) +
    (if s.djl then 0 else 1) + (if s.djr then 0 else 1)

lemma sideSpec_of_true {i d' : Bool} (h : sideSpec i true d') : i = true := by
  rcases h with ⟨a, b⟩ | ⟨a, b, c⟩ | ⟨a, b, c⟩ <;> simp_all

lemma sideSpec_elim_true {i d' : Bool} (h : sideSpec i true d') :
    (i = true ∧ d' = true) ∨ (i = true ∧ d' = false) := by
  rcases h with ⟨a, b⟩ | ⟨a, b, c⟩ | ⟨a, b, c⟩ <;> simp_all

lemma sideSpec_elim_false {i d' : Bool} (h : sideSpec i false d') :
    (i = true ∧ d' = false) ∨ (i = false ∧ d' = true) := by
  rcases h with ⟨a, b⟩ | ⟨a, b, c⟩ | ⟨a, b, c⟩ <;> simp_all

set_option maxRecDepth 4000 in
lemma symStepF_next_phi {set : List Tile} {s s' : SymSt}
    (h : symStepF set s = .next s') : phi set s' < phi set s := by
  obtain ⟨l, r, dl, dr⟩ := s
  unfold symStepF at h
  cases hl : set.get? l with
  | none => rw [hl] at h; cases h
  | some tl =>
  cases hr : set.get? r with
  | none => rw [hl, hr] at h; cases h
  | some tr =>
  rw [hl, hr] at h
  dsimp only at h
  have hltl : l < set.length := by
    by_contra hc
    rw [List.get?_eq_none.mpr (by omega)] at hl
    cases hl
  have hltr : r < set.length := by
    by_contra hc
    rw [List.get?_eq_none.mpr (by omega)] at hr
    cases hr
  clear hl hr
  cases hc : symCmp tl tr dl dr with
  | none => rw [hc] at h; cases h
  | some q =>
  obtain ⟨il, ir, djl', djr'⟩ := q
  rw [hc] at h
  obtain ⟨hL, hR⟩ := symCmp_spec hc
  clear hc
  dsimp only at h
  rcases hL with ⟨e1, e2⟩ | ⟨e1, e2, e3⟩ | ⟨e1, e2, e3⟩ <;>
    rcases hR with ⟨f1, f2⟩ | ⟨f1, f2, f3⟩ | ⟨f1, f2, f3⟩ <;>
    subst_vars <;>
    (try cases dl) <;>
    (try cases dr) <;>
    (repeat' split at h) <;>
    (try cases h) <;>
    (try (exact absurd rfl (by assumption))) <;>
    (try (simp [phi] <;> omega)) <;>
    simp_all

lemma symStepF_ret_ne {set : List Tile} {s : SymSt} {r : SymRes}
    (h : symStepF set s = .ret r) : r ≠ SymRes.fuelOut := by
  unfold symStepF at h
  repeat' split at h
  all_goals try (cases h)
  all_goals simp

lemma symGo_ne_fuelOut {set : List Tile} :
    ∀ (fuel : Nat) (s : SymSt), phi set s < fuel →
      symGo set fuel s ≠ .fuelOut := by
  intro fuel
  induction fuel with
  | zero => intro s h; omega
  | succ n ih =>
    intro s h
    cases hstep : symStepF set s with
    | ret r =>
      have hne := symStepF_ret_ne hstep
      simp [symGo, hstep, hne]
    | next s' =>
      have hlt := symStepF_next_phi hstep
      simp only [symGo, hstep]
      exact ih s' (by omega)

lemma isSymmetricChecked_ne_fuelOut (set : List Tile) (axis : Nat) :
    isSymmetricChecked set axis ≠ .fuelOut := by
  unfold isSymmetricChecked
  split
  · simp
  · by_cases hl : axis - 1 < set.length
    · apply symGo_ne_fuelOut
      simp only [phi, symFuel]
      simp only [if_neg (by simp : ¬ (false = true))]
      omega
    · have hget : set.get? (axis - 1) = none := List.get?_eq_none.mpr (by omega)
      obtain ⟨k, hk⟩ : ∃ k, symFuel set = k + 1 :=
        ⟨4 * set.length + 3, by simp [symFuel]⟩
      rw [hk]
      rw [List.get?_eq_getElem?] at hget
      simp [symGo, symStepF, hget]

lemma symToV_ne {x : SymRes} (h : x ≠ .fuelOut) : symToV x ≠ VRes.fuelOut := by
  cases x <;> simp_all [symToV]

lemma validStep_halt_ne {set : List Tile} {i : Nat} {p : Parsing} {t : Tile}
    {r : VRes} (h : validStep set i p t = .halt r) : r ≠ VRes.fuelOut := by
  rcases p with ⟨lv, a, s⟩ | ⟨v, a, s⟩ | ⟨ts, s⟩
  all_goals rcases t with tb | jv
  all_goals try cases jv
  all_goals simp only [validStep, runStep, groupStep, undetStep] at h
  all_goals repeat' split at h
  all_goals try (cases h)
  all_goals first
    | exact symToV_ne (isSymmetricChecked_ne_fuelOut _ _)
    | simp

lemma validGo_ne_fuelOut {set : List Tile} :
    ∀ (ts : List Tile) (i : Nat) (p : Parsing),
      validGo set i p ts ≠ .fuelOut := by
  intro ts
  induction ts with
  | nil => intro i p; simp [validGo]
  | cons t ts ih =>
    intro i p
    cases hstep : validStep set i p t with
    | halt r => simpa [validGo, hstep] using validStep_halt_ne hstep
    | cont p' => simp only [validGo, hstep]; exact ih (i + 1) p'

/-- Evaluation of one scan iteration when both cursors sit on basic tiles and
no pending-double flag is set. -/
lemma symStepF_basic {set : List Tile} {l r : Nat} {bl br : BasicTile}
    (hgl : set.get? l = some (.basic bl)) (hgr : set.get? r = some (.basic br)) :
    symStepF set ⟨l, r, false, false⟩ =
      if bl = br then
        if l = 0 ∨ r = set.length - 1 then
          SymStep.ret (.val (l == 0 && r == set.length - 1))
        else SymStep.next ⟨l - 1, r + 1, false, false⟩
      else SymStep.ret (.val false) := by
  unfold symStepF
  try dsimp only
  rw [hgl, hgr]
  try dsimp only
  by_cases hbl : bl = br
  · rw [if_pos hbl]
    subst hbl
    rw [show symCmp (Tile.basic bl) (Tile.basic bl) false false =
          some (true, true, false, false) from by simp [symCmp]]
    try dsimp only
    rw [if_neg (by simp [Tile.isDouble]), if_neg (by simp [Tile.isDouble])]
    split
    · rfl
    · simp
  · rw [if_neg hbl]
    rw [show symCmp (Tile.basic bl) (Tile.basic br) false false = none from by
      simp [symCmp, hbl]]

lemma symGo_basic_stop {set : List Tile} {l r m : Nat} {bl br : BasicTile}
    (hgl : set.get? l = some (.basic bl)) (hgr : set.get? r = some (.basic br))
    (hbl : bl = br) (hb0 : l = 0 ∨ r = set.length - 1) :
    symGo set (m + 1) ⟨l, r, false, false⟩ =
      .val (l == 0 && r == set.length - 1) := by
  simp only [symGo]
  rw [symStepF_basic hgl hgr, if_pos hbl, if_pos hb0]

lemma symGo_basic_step {set : List Tile} {l r m : Nat} {bl br : BasicTile}
    (hgl : set.get? l = some (.basic bl)) (hgr : set.get? r = some (.basic br))
    (hbl : bl = br) (hb0 : ¬(l = 0 ∨ r = set.length - 1)) :
    symGo set (m + 1) ⟨l, r, false, false⟩ =
      symGo set m ⟨l - 1, r + 1, false, false⟩ := by
  simp only [symGo]
  rw [symStepF_basic hgl hgr, if_pos hbl, if_neg hb0]

lemma symGo_basic_fail {set : List Tile} {l r m : Nat} {bl br : BasicTile}
    (hgl : set.get? l = some (.basic bl)) (hgr : set.get? r = some (.basic br))
    (hbl : bl ≠ br) :
    symGo set (m + 1) ⟨l, r, false, false⟩ = .val false := by
  simp only [symGo]
  rw [symStepF_basic hgl hgr, if_neg hbl]

/-- On a basic-only span around a midpoint axis with all pairs equal, the scan
accepts. -/
lemma symGo_basic_true {set : List Tile} {axis : Nat}
    (hmid : 2 * axis + 1 = set.length)
    (hb : ∀ i, i < set.length → i ≠ axis → ∃ b, set.get? i = some (Tile.basic b)) :
    ∀ (n k fuel : Nat), 1 ≤ k → k ≤ axis → axis - k ≤ n → n < fuel →
      (∀ j, k ≤ j → j ≤ axis → set.get? (axis - j) = set.get? (axis + j)) →
      symGo set fuel ⟨axis - k, axis + k, false, false⟩ = .val true := by
  intro n
  induction n using Nat.strong_induction_on with
  | _ n ih =>
    intro k fuel hk1 hka hlk hfuel hpairs
    obtain ⟨bl, hgl⟩ := hb (axis - k) (by omega) (by omega)
    obtain ⟨br, hgr⟩ := hb (axis + k) (by omega) (by omega)
    have hpair := hpairs k le_rfl hka
    rw [hgl, hgr] at hpair
    have hbl : bl = br := by simpa using hpair
    obtain ⟨m, rfl⟩ : ∃ m, fuel = m + 1 := ⟨fuel - 1, by omega⟩
    by_cases hstop : axis - k = 0 ∨ axis + k = set.length - 1
    · rw [symGo_basic_stop hgl hgr hbl hstop]
      have e0 : axis - k = 0 := by omega
      have e1 : axis + k = set.length - 1 := by omega
      rw [e0, e1]
      simp
    · rw [symGo_basic_step hgl hgr hbl hstop]
      have e0 : axis - k - 1 = axis - (k + 1) := by omega
      have e1 : axis + k + 1 = axis + (k + 1) := by omega
      rw [e0, e1]
      exact ih (n - 1) (by omega) (k + 1) m (by omega) (by omega) (by omega)
        (by omega) (fun j hj1 hj2 => hpairs j (by omega) hj2)

/-- On a basic-only span that is not a perfectly mirrored midpoint span, the
scan rejects. -/
lemma symGo_basic_false {set : List Tile} {axis : Nat}
    (hb : ∀ i, i < set.length → i ≠ axis → ∃ b, set.get? i = some (Tile.basic b))
    (h1 : 0 < axis) (h2 : axis + 1 < set.length)
    (hnot : ¬(2 * axis + 1 = set.length ∧
        ∀ j, 1 ≤ j → j ≤ axis → set.get? (axis - j) = set.get? (axis + j))) :
    ∀ (n k fuel : Nat), 1 ≤ k → k ≤ axis → axis + k ≤ set.length - 1 →
      axis - k ≤ n → n < fuel →
      (∀ j, 1 ≤ j → j < k → set.get? (axis - j) = set.get? (axis + j)) →
      symGo set fuel ⟨axis - k, axis + k, false, false⟩ = .val false := by
  intro n
  induction n using Nat.strong_induction_on with
  | _ n ih =>
    intro k fuel hk1 hka hkr hlk hfuel hpairs
    obtain ⟨bl, hgl⟩ := hb (axis - k) (by omega) (by omega)
    obtain ⟨br, hgr⟩ := hb (axis + k) (by omega) (by omega)
    obtain ⟨m, rfl⟩ : ∃ m, fuel = m + 1 := ⟨fuel - 1, by omega⟩
    by_cases hbl : bl = br
    · by_cases hstop : axis - k = 0 ∨ axis + k = set.length - 1
      · rw [symGo_basic_stop hgl hgr hbl hstop]
        by_cases hboth : axis - k = 0 ∧ axis + k = set.length - 1
        · exfalso
          apply hnot
          refine ⟨by omega, fun j hj1 hja => ?_⟩
          by_cases hjk : j = k
          · subst hjk
            rw [hgl, hgr, hbl]
          · exact hpairs j hj1 (by omega)
        · by_cases hA : axis - k = 0
          · have hB : axis + k ≠ set.length - 1 := fun hh => hboth ⟨hA, hh⟩
            simp [hA, hB]
          · simp [hA]
      · rw [symGo_basic_step hgl hgr hbl hstop]
        have e0 : axis - k - 1 = axis - (k + 1) := by omega
        have e1 : axis + k + 1 = axis + (k + 1) := by omega
        rw [e0, e1]
        refine ih (n - 1) (by omega) (k + 1) m (by omega) (by omega) (by omega)
          (by omega) (by omega) (fun j hj1 hjk => ?_)
        by_cases hjk2 : j = k
        · subst hjk2
          rw [hgl, hgr, hbl]
        · exact hpairs j hj1 (by omega)
    · rw [symGo_basic_fail hgl hgr hbl]

/-! Claim theorems. -/

/-- Claim C1.  Refuted: `isValidSet` does not return a boolean on every
well-formed input.  On `[Red7, MirrorJoker, DoubleJoker]` the symmetry
resolver's right-boundary Double-joker path executes `left -= 1` with
`left == 0`, a `usize` underflow that aborts the process (in release mode the
wrapped cursor is then indexed out of bounds), instead of yielding `false`. -/
theorem claim_C1_mirror_boundary_double_panics :
    isValidSet [.basic ⟨.red, 7⟩, .joker .mirror, .joker .double] = .idxPanic := by
  decide

/-- Claim C2.  Refuted: the fatal allowance-count branch is reachable from
`is_valid_set`.  After `[Orange6, ColorChange, ColorChange]` the Run state
holds `lastValue` known and all four colors allowed, so a third ColorChange
joker finds an allowance count of 4 — neither 1 nor the already-reset count 3
the code handles — and hits the `panic!`. -/
theorem claim_C2_color_change_panic_reachable :
    isValidSet [.basic ⟨.orange, 6⟩, .joker .colorChange, .joker .colorChange,
      .joker .colorChange] = .allowPanic := by
  decide

/-- Claim C3.  Refuted: the leading-joker guard `*size > t.value` is off by
one, so `[SingleJoker, Red1, Red2]` — whose implied run start is
`1 - 1 = 0 < 1` — is accepted, contradicting the source's own comment that
`J J 2 3` is not valid (the slip is masked when more tiles follow, as in the
test `[J, Red1, Red2, Red3]`, where the Run-state check catches it). -/
theorem claim_C3_leading_joker_start_accepted :
    isValidSet [.joker .single, .basic ⟨.red, 1⟩, .basic ⟨.red, 2⟩] = .ok true := by
  decide

/-- Claim C4.  Refuted: the Group arm never clears `allow[t.color]` after
consuming a basic tile, so the repeated-color group
`[Red7, Blue7, Black7, Black7]` is accepted; only the two colors seen before
the Group transition are excluded. -/
theorem claim_C4_repeated_color_group_accepted :
    isValidSet [.basic ⟨.red, 7⟩, .basic ⟨.blue, 7⟩, .basic ⟨.black, 7⟩,
      .basic ⟨.black, 7⟩] = .ok true := by
  decide

/-- Claim C8.  `[Orange6, ColorChangeJoker, ColorChangeJoker, Blue9]` is
valid: the two adjacent color changes cancel (allowance count 3 is reset to
all four colors) while `lastValue` advances by 1 per position, reaching 9. -/
theorem claim_C8_adjacent_color_change_cancel :
    isValidSet [.basic ⟨.orange, 6⟩, .joker .colorChange, .joker .colorChange,
      .basic ⟨.blue, 9⟩] = .ok true := by
  decide

/-- Claim C5.  A pure ascending run (same color, consecutive values,
length `n ≥ 3`, start `v ≥ 1`, end `v + n - 1 ≤ 13`, no jokers) is accepted,
and the same tiles in descending order are rejected. -/
theorem claim_C5_pure_runs (c : TileColor) (v n : Nat) (hv : 1 ≤ v)
    (hn : 3 ≤ n) (hvn : v + n ≤ 14) :
    isValidSet (ascFrom c v n) = .ok true ∧
      isValidSet ((ascFrom c v n).reverse) = .ok false := by
  obtain ⟨m, rfl⟩ : ∃ m, n = m + 3 := ⟨n - 3, by omega⟩
  constructor
  · have hstep0 : validStep (ascFrom c v (m + 3)) 0 initState (.basic ⟨c, v⟩) =
        .cont (.undetermined (some (⟨c, v⟩, 1)) 1) := by
      simp only [initState, validStep, undetStep]
      rw [if_neg (by omega), if_neg (by decide)]
      rfl
    have hstep1 : validStep (ascFrom c v (m + 3)) 1
        (.undetermined (some (⟨c, v⟩, 1)) 1) (.basic ⟨c, v + 1⟩) =
        .cont (.run (some (v + 1)) (Colors.only c) 2) := by
      simp only [validStep, undetStep]
      rw [if_neg (by omega)]
      rw [if_pos (by exact ⟨(Nat.mod_eq_of_lt (by omega)).symm, by trivial⟩),
        if_neg (by omega)]
      rfl
    unfold isValidSet
    rw [ascFrom_length, if_neg (by omega)]
    rw [show ascFrom c v (m + 3) =
          .basic ⟨c, v⟩ :: .basic ⟨c, v + 1⟩ :: ascFrom c (v + 1 + 1) (m + 1)
        from rfl] at hstep0 hstep1 ⊢
    rw [validGo_cons_cont hstep0, validGo_cons_cont hstep1]
    exact validGo_run_asc (m + 1) (v + 1) 2 2 (by omega) (by omega)
  · have hrev1 : (ascFrom c v (m + 3)).reverse =
        .basic ⟨c, v + (m + 2)⟩ :: .basic ⟨c, v + (m + 1)⟩ ::
          (ascFrom c v (m + 1)).reverse := by
      rw [show m + 3 = (m + 2) + 1 from rfl, ascFrom_reverse_cons,
        show m + 2 = (m + 1) + 1 from rfl, ascFrom_reverse_cons]
    refine isValidSet_desc_start (c := c) (w := v + m + 1) _ ?_ ?_ (by omega)
      (by omega) ?_
    · rw [hrev1]
      have : v + (m + 2) = v + m + 1 + 1 := by omega
      rw [this]
      rfl
    · rw [hrev1]
      have : v + (m + 1) = v + m + 1 := by omega
      rw [this]
      rfl
    · rw [List.length_reverse, ascFrom_length]
      omega

/-- Witness for claim C5: the red run 5,6,7 and its reversal. -/
theorem claim_C5_witness :
    (1 ≤ 5 ∧ 3 ≤ 3 ∧ 5 + 3 ≤ 14) ∧
      isValidSet (ascFrom .red 5 3) = .ok true ∧
      isValidSet ((ascFrom .red 5 3).reverse) = .ok false :=
  ⟨by decide, claim_C5_pure_runs .red 5 3 (by decide) (by decide) (by decide)⟩

/-- Claim C6.  The symmetry resolver on joker-free spans: an axis at the
first or last position is immediately rejected; and when every non-axis tile
is basic, the scan accepts exactly when the axis is the exact midpoint and
each pair of tiles at equal offsets left and right of the axis is equal. -/
theorem claim_C6_symmetry_on_basic_spans :
    (∀ (set : List Tile) (axis : Nat), axis = 0 ∨ axis = set.length - 1 →
        isSymmetricChecked set axis = .val false) ∧
      (∀ (set : List Tile) (axis : Nat), 0 < axis → axis + 1 < set.length →
        (∀ i, i < set.length → i ≠ axis →
          ∃ b, set.get? i = some (Tile.basic b)) →
        (isSymmetricChecked set axis = .val true ↔
          (2 * axis + 1 = set.length ∧
            ∀ k, 1 ≤ k → k ≤ axis →
              set.get? (axis - k) = set.get? (axis + k)))) := by
  constructor
  · intro set axis h
    unfold isSymmetricChecked
    rw [if_pos h]
  · intro set axis h1 h2 hb
    have hax0 : ¬(axis = 0 ∨ axis = set.length - 1) := by omega
    unfold isSymmetricChecked
    rw [if_neg hax0]
    constructor
    · intro htrue
      by_contra hnot
      have hfalse := symGo_basic_false hb h1 h2 hnot (axis - 1) 1 (symFuel set)
        le_rfl (by omega) (by omega) (by omega)
        (by simp only [symFuel]; omega)
        (fun j hj1 hj2 => absurd hj2 (by omega))
      rw [hfalse] at htrue
      simp at htrue
    · rintro ⟨hmid, hpairs⟩
      exact symGo_basic_true hmid hb (axis - 1) 1 (symFuel set) le_rfl
        (by omega) (by omega) (by simp only [symFuel]; omega)
        (fun j hj1 hj2 => hpairs j hj1 hj2)

/-- Witness for claim C6 at the concrete sequence `[Red7, Mirror, Red7]`. -/
theorem claim_C6_witness :
    isSymmetricChecked [Tile.basic ⟨.red, 7⟩, Tile.joker .mirror,
        Tile.basic ⟨.red, 7⟩] 0 = .val false ∧
      (isSymmetricChecked [Tile.basic ⟨.red, 7⟩, Tile.joker .mirror,
          Tile.basic ⟨.red, 7⟩] 1 = .val true ↔
        (2 * 1 + 1 = [Tile.basic ⟨.red, 7⟩, Tile.joker .mirror,
            Tile.basic ⟨.red, 7⟩].length ∧
          ∀ k, 1 ≤ k → k ≤ 1 →
            [Tile.basic ⟨.red, 7⟩, Tile.joker .mirror,
              Tile.basic ⟨.red, 7⟩].get? (1 - k) =
              [Tile.basic ⟨.red, 7⟩, Tile.joker .mirror,
                Tile.basic ⟨.red, 7⟩].get? (1 + k))) :=
  ⟨claim_C6_symmetry_on_basic_spans.1 _ 0 (Or.inl rfl),
    claim_C6_symmetry_on_basic_spans.2 _ 1 (by decide) (by decide) (by
      intro i hi hne
      rcases i with _ | _ | _ | n
      · exact ⟨⟨.red, 7⟩, rfl⟩
      · exact absurd rfl hne
      · exact ⟨⟨.red, 7⟩, rfl⟩
      · simp only [List.length_cons, List.length_nil] at hi
        omega)⟩

/-- Claim C7.  Once the validator has committed to the Group classification,
encountering a ColorChange joker before any Mirror joker makes `isValidSet`
return `false` (well-formed tiles assumed up to the ColorChange). -/
theorem claim_C7_group_color_change (pre rest : List Tile) (v : Nat) (a : Allow)
    (s : Nat) (hlen : 3 ≤ (pre ++ rest).length)
    (hpre : stateAfter (pre ++ rest) 0 initState pre = some (.group v a s))
    (hcc : leadsToCC rest) :
    isValidSet (pre ++ rest) = .ok false := by
  unfold isValidSet
  rw [if_neg (by omega)]
  rw [validGo_append pre rest 0 initState (.group v a s) hpre]
  exact validGo_group_cc rest (0 + pre.length) v a s hcc

/-- Witness for claim C7 at the concrete input `[Red7, Blue7, ColorChange]`. -/
theorem claim_C7_witness :
    3 ≤ ([Tile.basic ⟨.red, 7⟩, Tile.basic ⟨.blue, 7⟩] ++
        [Tile.joker .colorChange]).length ∧
    stateAfter ([Tile.basic ⟨.red, 7⟩, Tile.basic ⟨.blue, 7⟩] ++
        [Tile.joker .colorChange]) 0 initState
        [Tile.basic ⟨.red, 7⟩, Tile.basic ⟨.blue, 7⟩] =
      some (.group 7 ⟨true, false, false, true⟩ 2) ∧
    leadsToCC [Tile.joker .colorChange] ∧
    isValidSet ([Tile.basic ⟨.red, 7⟩, Tile.basic ⟨.blue, 7⟩] ++
        [Tile.joker .colorChange]) = .ok false :=
  ⟨by decide, by decide, Or.inl rfl,
    claim_C7_group_color_change _ _ 7 ⟨true, false, false, true⟩ 2
      (by decide) (by decide) (Or.inl rfl)⟩

/-- Claim C9.  Both routines terminate on every input: the validator is a
single structural pass over the sequence, and the two-pointer symmetry scan
never exhausts its linear fuel budget of `4 * length + 4` iterations (each
iteration strictly decreases the measure `phi`), so neither function can
yield the `fuelOut` marker. -/
theorem claim_C9_termination :
    (∀ (set : List Tile) (axis : Nat),
        isSymmetricChecked set axis ≠ SymRes.fuelOut) ∧
      (∀ set : List Tile, isValidSet set ≠ VRes.fuelOut) := by
  refine ⟨isSymmetricChecked_ne_fuelOut, fun set => ?_⟩
  unfold isValidSet
  split
  · simp
  · exact validGo_ne_fuelOut set 0 initState

/-- Claim C10.  The classification is monotone: a non-halting step from a Run
state stays in Run, and from a Group state stays in Group (Undetermined may
move to any state; Run and Group never revert or cross). -/
theorem claim_C10_state_monotone (set : List Tile) (i : Nat) (p : Parsing)
    (t : Tile) (p' : Parsing) (h : validStep set i p t = .cont p') :
    (p.isRun = true → p'.isRun = true) ∧
      (p.isGroup = true → p'.isGroup = true) := by
  rcases p with ⟨lv, a, s⟩ | ⟨v, a, s⟩ | ⟨ts, s⟩
  · exact ⟨fun _ => runStep_cont h, fun hg => by simp [Parsing.isGroup] at hg⟩
  · exact ⟨fun hr => by simp [Parsing.isRun] at hr, fun _ => groupStep_cont h⟩
  · exact ⟨fun hr => by simp [Parsing.isRun] at hr,
      fun hg => by simp [Parsing.isGroup] at hg⟩

/-- Witness for claim C10 at a concrete Run-state step. -/
theorem claim_C10_witness :
    validStep [] 0 (.run (some 5) Colors.all 2) (.joker .single) =
      .cont (.run (some 6) Colors.all 3) ∧
    ((Parsing.run (some 5) Colors.all 2).isRun = true →
      (Parsing.run (some 6) Colors.all 3).isRun = true) ∧
    ((Parsing.run (some 5) Colors.all 2).isGroup = true →
      (Parsing.run (some 6) Colors.all 3).isGroup = true) :=
  ⟨by decide,
    claim_C10_state_monotone [] 0 (.run (some 5) Colors.all 2) (.joker .single)
      (.run (some 6) Colors.all 3) (by decide)⟩

end Rummikub
